import Mathlib

/-!
Verification of the snip snippet manager (src/main.py) against its
natural-language specification.  The Python source is shallowly embedded:
the SQLite-backed `Database` class becomes a pure record store, timestamps
become naturals (standing for the sortable ISO-8601 strings the code writes),
and the SQL fragments the code builds (`INSERT`, `UPDATE ... SET`, `DELETE`,
`SELECT ... WHERE ... LIKE ... ORDER BY modified DESC`) are translated into
list operations.  String handling is modelled at ASCII granularity, matching
how both Python `str.lower` and SQLite `LOWER`/`LIKE` behave on the ASCII
inputs the tool manipulates.
-/

/-- Row of the `snippets` table created by `Database._init_db`: integer id
(AUTOINCREMENT primary key), title, comma-joined tags string, description,
filepath, and the created/modified timestamps. -/
structure Snippet where
  id : Nat
  title : String
  tags : String
  description : String
  filepath : String
  created : Nat
  modified : Nat
deriving DecidableEq

/-- State of the store: the rows of the `snippets` table plus SQLite's
AUTOINCREMENT counter (the id the next INSERT will be assigned). -/
structure DB where
  rows : List Snippet
  nextId : Nat
deriving DecidableEq

/-- AUTOINCREMENT invariant maintained by SQLite: every stored id is strictly
below the next id to be assigned, so ids are unique and never reused. -/
def DB.WF (db : DB) : Prop := ∀ s ∈ db.rows, s.id < db.nextId

/-- Failure conditions surfaced by the embedded operations: sqlite3 raising on
a malformed statement is `sqlError`; `notFound` exists for the spec-side
comparison definitions. -/
inductive DbError where
  | notFound
  | sqlError
deriving DecidableEq

/-- Embedding of `Database.add_snippet`: joins the tag list with ",", inserts a
row stamped `created = modified = now`, and returns `cursor.lastrowid` (the
AUTOINCREMENT id) together with the new store state. -/
def addSnippet (db : DB) (now : Nat) (title : String) (tags : List String)
    (description filepath : String) : Nat × DB :=
  let tagsStr := String.intercalate "," tags
  (db.nextId,
   { rows := db.rows ++ [⟨db.nextId, title, tagsStr, description, filepath, now, now⟩],
     nextId := db.nextId + 1 })

/-- Embedding of `Database.update_snippet`: the SET list receives `title` only
when it is truthy (not None and not the empty string), `tags` and `description`
whenever they are not None; if the SET list is non-empty the UPDATE also bumps
`modified = now` on every row with the given id, and otherwise no statement is
executed at all. -/
def updateSnippet (db : DB) (now : Nat) (id : Nat) (title : Option String)
    (tags : Option (List String)) (description : Option String) : DB :=
  let doTitle := match title with
    | some t => !t.isEmpty
    | none => false
  if doTitle || tags.isSome || description.isSome then
    { db with rows := db.rows.map (fun s =>
        if s.id = id then
          { s with
            title := if doTitle then title.getD s.title else s.title
            tags := match tags with
              | some ts => String.intercalate "," ts
              | none => s.tags
            description := description.getD s.description
            modified := now }
        else s) }
  else db

/-- Embedding of `Database.delete_snippet`: `DELETE FROM snippets WHERE id = ?`
removes any row with the given id and reports nothing either way (the code
never inspects the affected-row count). -/
def deleteSnippet (db : DB) (id : Nat) : DB :=
  { db with rows := db.rows.filter (fun s => s.id != id) }

/-- Embedding of `Database.get_snippet`: `SELECT * FROM snippets WHERE id = ?`
returning the first matching row, if any. -/
def getSnippet (db : DB) (id : Nat) : Option Snippet :=
  db.rows.find? (fun s => s.id == id)

/-- ASCII lowercasing of a string, standing both for Python `str.lower()` and
for SQLite `LOWER`. -/
def lowerStr (s : String) : String := ⟨s.data.map Char.toLower⟩

/-- Every suffix of a character list, longest first; used to give SQL `LIKE`
a structurally recursive semantics. -/
def tailsOf : List Char → List (List Char)
  | [] => [[]]
  | c :: s => (c :: s) :: tailsOf s

/-- Semantics of SQLite `LIKE` (no ESCAPE clause): `%` matches any run of
characters, `_` matches exactly one character, and any other pattern character
matches itself.  Both sides are already lowercased by the query the code
builds, so plain characters compare exactly. -/
def likeMatch : List Char → List Char → Bool
  | [], s => s.isEmpty
  | p :: ps, s =>
    if p == '%' then (tailsOf s).any (fun t => likeMatch ps t)
    else match s with
      | [] => false
      | c :: s => (p == '_' || p == c) && likeMatch ps s

/-- One `LOWER(field) LIKE '%term%'` test from `Database.search_snippets`
(the bound parameter is `f"%{term}%"` with `term` already lowercased). -/
def fieldLike (term : String) (field : String) : Bool :=
  likeMatch ('%' :: term.data ++ ['%']) (lowerStr field).data

/-- One per-term WHERE conjunct from `Database.search_snippets`:
`(LOWER(title) LIKE ? OR LOWER(tags) LIKE ? OR LOWER(description) LIKE ?)`. -/
def matchesTerm (term : String) (s : Snippet) : Bool :=
  fieldLike term s.title || fieldLike term s.tags || fieldLike term s.description

/-- Helper for `termsOf`: walk the characters keeping the current word
(reversed) as accumulator, emitting a word at each whitespace boundary. -/
def splitWsAux : List Char → List Char → List String
  | [], acc => if acc.isEmpty then [] else [⟨acc.reverse⟩]
  | c :: rest, acc =>
    if c.isWhitespace then
      if acc.isEmpty then splitWsAux rest []
      else ⟨acc.reverse⟩ :: splitWsAux rest []
    else splitWsAux rest (c :: acc)

/-- Embedding of `query.lower().split()`: lowercase the query, then split on
whitespace runs into non-empty terms (Python `str.split` with no separator
discards empty fields). -/
def termsOf (query : String) : List String :=
  splitWsAux (lowerStr query).data []

/-- Result order demanded by `ORDER BY modified DESC`: a row may precede
another exactly when its modified stamp is at least as large. -/
def modDesc (a b : Snippet) : Prop := b.modified ≤ a.modified

instance : DecidableRel modDesc := fun a b => Nat.decLe b.modified a.modified

instance : IsTotal Snippet modDesc := ⟨fun a b => le_total b.modified a.modified⟩

instance : IsTrans Snippet modDesc := ⟨fun _ _ _ h h' => le_trans h' h⟩

/-- Embedding of `Database.search_snippets`.  An empty query selects all rows.
Otherwise the lowercased query is whitespace-split into terms and every term
contributes one LIKE conjunct, the conjuncts joined by AND.  A non-empty query
consisting only of whitespace produces zero conjuncts and hence the malformed
statement `SELECT ... WHERE  ORDER BY ...`, which sqlite3 rejects at run time
(modelled as `sqlError`).  Rows come back `ORDER BY modified DESC`; SQLite
leaves the order of ties unspecified, and the embedding fixes insertion sort
as one witness of that ordering. -/
def searchSnippets (db : DB) (query : String) : Except DbError (List Snippet) :=
  if query.isEmpty then
    .ok (List.insertionSort modDesc db.rows)
  else
    let terms := termsOf query
    if terms.isEmpty then .error .sqlError
    else .ok (List.insertionSort modDesc
      (db.rows.filter (fun s => terms.all (fun t => matchesTerm t s))))

/-- Embedding of the editor resolution in `open_editor`:
`os.environ.get('EDITOR', os.environ.get('VISUAL', 'vim'))`, with the process
environment modelled as a partial map from variable names to values. -/
def resolveEditor (env : String → Option String) : String :=
  (env "EDITOR").getD ((env "VISUAL").getD "vim")

/-- Filename derivation in `create_snippet_file`: lowercase the title and keep
alphanumerics, '-' and '_', replacing every other character with '_'. -/
def safeFilename (title : String) : String :=
  ⟨title.data.map (fun c =>
    let c := c.toLower
    if c.isAlphanum || c == '-' || c == '_' then c else '_')⟩

/-- Candidate paths tried by `create_snippet_file`, relative to FILES_DIR:
first `<base>.md`, then `<base>_1.md`, `<base>_2.md`, and so on. -/
def candidateName (title : String) : Nat → String
  | 0 => safeFilename title ++ ".md"
  | k + 1 => safeFilename title ++ "_" ++ toString (k + 1) ++ ".md"

/-- Collision loop `while filepath.exists(): ...` of `create_snippet_file`,
against a filesystem modelled as a membership test `ex`; `fuel` bounds the
search (the real loop terminates because the directory holds finitely many
files, so some candidate is always free). -/
def findFreePath (ex : String → Bool) (title : String) : Nat → Nat → Option String
  | 0, _ => none
  | fuel + 1, k =>
    if ex (candidateName title k) then findFreePath ex title fuel (k + 1)
    else some (candidateName title k)

/-- Template written by `create_snippet_file` before the editor opens. -/
def templateFor (title description : String) : String :=
  "# " ++ title ++ "\n\n" ++ description ++
  "\n\n## Example\n\n```\n// Write your code examples here\n// You can use multiple code blocks, add notes, explanations, etc.\n```\n\n## Notes\n\n- Add any important points, gotchas, or reminders here\n"

/-- Embedding of Python `str.strip()`: drop whitespace from both ends
(written over the character list so it evaluates structurally). -/
def stripStr (s : String) : String :=
  ⟨((s.data.dropWhile Char.isWhitespace).reverse.dropWhile Char.isWhitespace).reverse⟩

/-- Decision `create_snippet_file` takes after the editor returns, given the
final file content: keep the file and hand the content back for insertion iff
`content.strip()` is truthy and `len(content) > len(template) * 0.5`
(equivalently `2 * len(content) > len(template)` over the integers, `len`
counting code points); otherwise the file is deleted and the flow reports
cancellation (`none`). -/
def addFlowResult (title description content : String) : Option String :=
  let template := templateFor title description
  if stripStr content ≠ "" ∧ 2 * content.data.length > template.data.length then
    some content
  else none

/-- Validation the `add` command performs before any database call: the title
must be non-blank after stripping, and the parsed tag list must be non-empty;
otherwise the command prints an error and returns without inserting. -/
def addCmdAccepts (title : String) (tags : List String) : Bool :=
  !(stripStr title).isEmpty && !tags.isEmpty

/-- Tag parsing shared by the `add` and `import-file` commands:
`[t.strip() for t in tags_input.split(',') if t.strip()]`. -/
def parseTags (s : String) : List String :=
  ((s.splitOn ",").map stripStr).filter (fun t => !t.isEmpty)

/-- Modelled from the spec: `delete(id)` "removes the record; idempotent-fail
if id does not exist (signals not found)".  This is the specified behaviour,
written here only to be compared with the code's `deleteSnippet`, which never
signals anything. -/
def deleteSnippetSpec (db : DB) (id : Nat) : Except DbError DB :=
  if db.rows.any (fun s => s.id == id) then
    .ok { db with rows := db.rows.filter (fun s => s.id != id) }
  else .error .notFound

/-- Example row and store used by concrete counterexamples and witnesses. -/
def snipAbc : Snippet :=
  { id := 1, title := "abc", tags := "t", description := "", filepath := "a.md",
    created := 0, modified := 0 }

/-- Singleton store holding `snipAbc`, with the counter past its id. -/
def dbAbc : DB := { rows := [snipAbc], nextId := 2 }

/-- Example row with distinctive field values, for the update claims. -/
def snipT : Snippet :=
  { id := 1, title := "a", tags := "t", description := "d", filepath := "f.md",
    created := 5, modified := 5 }

/-- Singleton store holding `snipT`. -/
def dbT : DB := { rows := [snipT], nextId := 2 }

/-- Empty store, counter at SQLite's first AUTOINCREMENT id. -/
def emptyDB : DB := { rows := [], nextId := 1 }

/-- Helper: a `SELECT ... WHERE id = ?` after an UPDATE that rewrites exactly
the rows with that id (keeping ids intact) sees the looked-up row transformed
by the rewriting function. -/
theorem getSnippet_map_ite (db : DB) (id : Nat) (g : Snippet → Snippet)
    (hid : ∀ s, (g s).id = s.id) :
    getSnippet { db with rows := db.rows.map (fun s => if s.id = id then g s else s) } id
      = (getSnippet db id).map g := by
  unfold getSnippet
  rw [List.find?_map]
  have hp : ((fun s : Snippet => s.id == id) ∘ fun s => if s.id = id then g s else s)
      = fun s : Snippet => s.id == id := by
    funext s
    by_cases h : s.id = id <;> simp [Function.comp, h, hid]
  rw [hp]
  cases hfind : db.rows.find? (fun s => s.id == id) with
  | none => rfl
  | some s =>
    have hs : s.id = id := by simpa using List.find?_some hfind
    simp [hs]

/-- Helper: rewriting the rows with an id-respecting, title-preserving function
leaves the list of titles unchanged. -/
theorem map_title_invariant (id : Nat) (f : Snippet → Snippet)
    (hf : ∀ s, (f s).title = s.title) (rows : List Snippet) :
    ((rows.map (fun s => if s.id = id then f s else s)).map Snippet.title)
      = rows.map Snippet.title := by
  rw [List.map_map]
  apply List.map_congr_left
  intro s _
  by_cases h : s.id = id <;> simp [Function.comp, h, hf]

/-- C10: an update supplying an empty-string title and nothing else executes no
statement at all — the record, including its modified stamp, is unchanged;
titles are never writable to the empty string through update (they survive any
update called with an empty title), whereas an empty description supplied to
update is accepted and written, bumping modified. -/
theorem update_empty_title_noop (db : DB) (now id : Nat) :
    updateSnippet db now id (some "") none none = db
    ∧ (∀ tg ds, ((updateSnippet db now id (some "") tg ds).rows.map Snippet.title)
        = db.rows.map Snippet.title)
    ∧ getSnippet (updateSnippet db now id none none (some "")) id
        = (getSnippet db id).map (fun s => { s with description := "", modified := now }) := by
  refine ⟨rfl, ?_, ?_⟩
  · intro tg ds
    rcases tg with _ | ts <;> rcases ds with _ | d
    · rfl
    · have heq : updateSnippet db now id (some "") none (some d)
          = { db with rows := db.rows.map (fun s =>
              if s.id = id then { s with description := d, modified := now } else s) } := rfl
      rw [heq]
      exact map_title_invariant id
        (fun s => { s with description := d, modified := now }) (fun _ => rfl) db.rows
    · have heq : updateSnippet db now id (some "") (some ts) none
          = { db with rows := db.rows.map (fun s =>
              if s.id = id then
                { s with tags := String.intercalate "," ts, modified := now }
              else s) } := rfl
      rw [heq]
      exact map_title_invariant id
        (fun s => { s with tags := String.intercalate "," ts, modified := now })
        (fun _ => rfl) db.rows
    · have heq : updateSnippet db now id (some "") (some ts) (some d)
          = { db with rows := db.rows.map (fun s =>
              if s.id = id then
                { s with tags := String.intercalate "," ts, description := d,
                         modified := now }
              else s) } := rfl
      rw [heq]
      exact map_title_invariant id
        (fun s => { s with tags := String.intercalate "," ts, description := d,
                           modified := now })
        (fun _ => rfl) db.rows
  · have heq : updateSnippet db now id none none (some "")
        = { db with rows := db.rows.map (fun s =>
            if s.id = id then { s with description := "", modified := now } else s) } := rfl
    rw [heq]
    exact getSnippet_map_ite db id _ (fun _ => rfl)

/-- C4 counterexample: updating with the empty-string title (and nothing else)
leaves the record untouched — the title does not become the supplied value ""
and modified stays at its prior value 5, contradicting the claim for T = "". -/
theorem update_empty_title_cex :
    updateSnippet dbT 9 1 (some "") none none = dbT
    ∧ (getSnippet (updateSnippet dbT 9 1 (some "") none none) 1).map Snippet.title
        = some "a"
    ∧ (getSnippet (updateSnippet dbT 9 1 (some "") none none) 1).map Snippet.modified
        = some 5 :=
  ⟨rfl, rfl, rfl⟩

/-- C4 (amended): for every id and every NON-EMPTY title T, update with only the
title supplied rewrites the looked-up record to have title T and modified = now,
leaving id, tags, description, filepath and created unchanged (so modified only
grows when the clock has not gone backwards); and an update with no optional
field supplied writes nothing at all. -/
theorem update_title_nonempty_updates (db : DB) (now id : Nat) (t : String)
    (ht : t ≠ "") :
    getSnippet (updateSnippet db now id (some t) none none) id
      = (getSnippet db id).map (fun s => { s with title := t, modified := now })
    ∧ updateSnippet db now id none none none = db
    ∧ (∀ s s', getSnippet db id = some s →
        getSnippet (updateSnippet db now id (some t) none none) id = some s' →
        s.modified ≤ now →
          s'.title = t ∧ s'.id = s.id ∧ s'.tags = s.tags
          ∧ s'.description = s.description ∧ s'.filepath = s.filepath
          ∧ s'.created = s.created ∧ s.modified ≤ s'.modified) := by
  have hne : (t.isEmpty : Bool) = false := by
    rcases h : (t.isEmpty : Bool) with _ | _
    · rfl
    · exact absurd ((String.isEmpty_iff t).mp h) ht
  have heq : updateSnippet db now id (some t) none none
      = { db with rows := db.rows.map (fun s =>
          if s.id = id then { s with title := t, modified := now } else s) } := by
    simp [updateSnippet, hne]
  have hget : getSnippet (updateSnippet db now id (some t) none none) id
      = (getSnippet db id).map (fun s => { s with title := t, modified := now }) := by
    rw [heq]
    exact getSnippet_map_ite db id
      (fun s => { s with title := t, modified := now }) (fun _ => rfl)
  refine ⟨hget, rfl, ?_⟩
  intro s s' hs hs' hmle
  rw [hget, hs] at hs'
  simp only [Option.map_some', Option.some.injEq] at hs'
  subst hs'
  exact ⟨rfl, rfl, rfl, rfl, rfl, rfl, hmle⟩

/-- Witness instantiating the amended update theorem at the singleton store. -/
theorem update_title_witness :
    getSnippet (updateSnippet dbT 9 1 (some "b") none none) 1
      = (getSnippet dbT 1).map (fun s => { s with title := "b", modified := 9 }) :=
  (update_title_nonempty_updates dbT 9 1 "b" (by decide)).1

/-- C5: inserting a snippet and then getting the returned id yields exactly the
inserted values (tags joined with ","), with the created stamp equal to the
modified stamp. -/
theorem insert_then_get_roundtrip (db : DB) (now : Nat) (title : String)
    (tags : List String) (d f : String) (hwf : db.WF) :
    getSnippet (addSnippet db now title tags d f).2 (addSnippet db now title tags d f).1
      = some { id := db.nextId, title := title, tags := String.intercalate "," tags,
               description := d, filepath := f, created := now, modified := now }
    ∧ (∀ s, getSnippet (addSnippet db now title tags d f).2
          (addSnippet db now title tags d f).1 = some s → s.created = s.modified) := by
  have h1 : getSnippet (addSnippet db now title tags d f).2
      (addSnippet db now title tags d f).1
      = some { id := db.nextId, title := title, tags := String.intercalate "," tags,
               description := d, filepath := f, created := now, modified := now } := by
    simp only [addSnippet, getSnippet, List.find?_append]
    have hnone : db.rows.find? (fun s => s.id == db.nextId) = none := by
      rw [List.find?_eq_none]
      intro x hx
      simp only [beq_iff_eq]
      exact Nat.ne_of_lt (hwf x hx)
    rw [hnone]
    simp
  refine ⟨h1, ?_⟩
  intro s hs
  rw [h1] at hs
  simp only [Option.some.injEq] at hs
  subst hs
  rfl

/-- Witness instantiating the insert-get roundtrip on the empty store. -/
theorem insert_then_get_witness :
    getSnippet (addSnippet emptyDB 7 "T" ["x", "y"] "D" "p.md").2
        (addSnippet emptyDB 7 "T" ["x", "y"] "D" "p.md").1
      = some { id := 1, title := "T", tags := "x,y", description := "D",
               filepath := "p.md", created := 7, modified := 7 } :=
  (insert_then_get_roundtrip emptyDB 7 "T" ["x", "y"] "D" "p.md"
    (by intro s hs; simp [emptyDB] at hs)).1

/-- C7 counterexample: the database layer accepts an empty title and an empty
tag list — the insert succeeds and persists the record instead of failing with
a constraint condition. -/
theorem insert_empty_accepted_cex :
    (addSnippet emptyDB 0 "" [] "" "p.md").2.rows
      = [{ id := 1, title := "", tags := "", description := "", filepath := "p.md",
           created := 0, modified := 0 }]
    ∧ (addSnippet emptyDB 0 "" [] "" "p.md").1 = 1 :=
  ⟨rfl, rfl⟩

/-- C7 (amended): `add_snippet` itself performs no emptiness validation — for
every store and every title and tag list, including empty ones, the insert
persists the row (SQLite's NOT NULL rejects only NULL, never the empty
string); the emptiness checks live in the CLI `add` command, which rejects a
blank title or an empty tag list before the database layer is reached. -/
theorem insert_no_validation (db : DB) (now : Nat) (title : String)
    (tags : List String) (d f : String) :
    (addSnippet db now title tags d f).2.rows
      = db.rows ++ [{ id := db.nextId, title := title,
                      tags := String.intercalate "," tags, description := d,
                      filepath := f, created := now, modified := now }]
    ∧ addCmdAccepts "" tags = false
    ∧ addCmdAccepts title [] = false := by
  refine ⟨rfl, rfl, ?_⟩
  simp [addCmdAccepts]

/-- C8 counterexample: deleting an id that is not in the store silently
succeeds with the store unchanged, while the behaviour the spec describes
signals a not-found condition at the same input. -/
theorem delete_missing_silent_cex :
    deleteSnippet dbT 42 = dbT
    ∧ deleteSnippetSpec dbT 42 = Except.error DbError.notFound :=
  ⟨rfl, rfl⟩

/-- C8 (amended): delete of a missing id is a silent no-op — the call returns
with the record set and counter unchanged, and `delete_snippet` has no failure
path at all. -/
theorem delete_missing_noop (db : DB) (id : Nat)
    (h : ∀ s ∈ db.rows, s.id ≠ id) :
    deleteSnippet db id = db := by
  unfold deleteSnippet
  have hfilter : db.rows.filter (fun s => s.id != id) = db.rows := by
    rw [List.filter_eq_self]
    intro a ha
    simpa using h a ha
  rw [hfilter]

/-- Witness: deleting the absent id 42 from the singleton store is a no-op. -/
theorem delete_missing_noop_witness : deleteSnippet dbAbc 42 = dbAbc :=
  delete_missing_noop dbAbc 42 (by decide)

/-- C9: the editor command is resolved from EDITOR first, then VISUAL, then the
hardcoded default "vim", in exactly that precedence order. -/
theorem editor_resolution_order (env : String → Option String) :
    (∀ s, env "EDITOR" = some s → resolveEditor env = s)
    ∧ (env "EDITOR" = none → ∀ s, env "VISUAL" = some s → resolveEditor env = s)
    ∧ (env "EDITOR" = none → env "VISUAL" = none → resolveEditor env = "vim") := by
  refine ⟨?_, ?_, ?_⟩ <;> intros <;> simp_all [resolveEditor]

/-- Environment holding only EDITOR=nano, for the editor-resolution witness. -/
def envNano : String → Option String :=
  fun k => if k == "EDITOR" then some "nano" else none

/-- Witness: with EDITOR set to nano and VISUAL unset, nano is chosen. -/
theorem editor_resolution_witness : resolveEditor envNano = "nano" :=
  (editor_resolution_order envNano).1 "nano" rfl

set_option maxRecDepth 4000 in
/-- C2: evaluation of the add flow at the failing input — the editor session
leaves the file exactly equal to the generated template, yet the keep check
`content.strip() and len(content) > len(template) * 0.5` holds (the template's
length L satisfies 2*L > L), so the file is kept and the content returned for
insertion; the cancellation the claim demands (`none`) does not happen. -/
theorem add_flow_keeps_unchanged_template :
    addFlowResult "T" "" (templateFor "T" "") = some (templateFor "T" "") := by
  rfl

/-- Unfolding equation for `likeMatch` on an empty pattern. -/
theorem likeMatch_nil (s : List Char) : likeMatch [] s = s.isEmpty := rfl

/-- Unfolding equation for `likeMatch` on a non-empty pattern. -/
theorem likeMatch_cons (a : Char) (p s : List Char) :
    likeMatch (a :: p) s
      = if a == '%' then (tailsOf s).any (fun t => likeMatch p t)
        else match s with
          | [] => false
          | c :: s => (a == '_' || a == c) && likeMatch p s := rfl

/-- Membership in `tailsOf` is exactly the suffix relation. -/
theorem mem_tailsOf (t s : List Char) : t ∈ tailsOf s ↔ t <:+ s := by
  induction s with
  | nil => simp [tailsOf]
  | cons c s ih => simp [tailsOf, ih, List.suffix_cons_iff]

/-- A pattern beginning with `%` matches exactly when some suffix of the
string matches the rest of the pattern. -/
theorem likeMatch_star (p s : List Char) :
    likeMatch ('%' :: p) s = true ↔ ∃ t, t <:+ s ∧ likeMatch p t = true := by
  rw [likeMatch_cons]
  simp [List.any_eq_true, mem_tailsOf]

/-- Character lists free of the LIKE wildcards `%` and `_`. -/
def noWild (p : List Char) : Prop := ∀ c ∈ p, c ≠ '%' ∧ c ≠ '_'

instance (p : List Char) : Decidable (noWild p) := by
  unfold noWild
  infer_instance

/-- A wildcard-free pattern followed by a trailing `%` matches exactly the
strings it literally starts. -/
theorem likeMatch_lit_star :
    ∀ (p : List Char), noWild p →
      ∀ (s : List Char), likeMatch (p ++ ['%']) s = true ↔ p <+: s := by
  intro p
  induction p with
  | nil =>
    intro _ s
    simp only [List.nil_append]
    rw [likeMatch_star]
    constructor
    · intro _
      simp
    · intro _
      exact ⟨[], ⟨s, by simp⟩, rfl⟩
  | cons a p ih =>
    intro hp s
    have ha : a ≠ '%' ∧ a ≠ '_' := hp a (List.mem_cons_self a p)
    have hp' : noWild p := fun c hc => hp c (List.mem_cons_of_mem a hc)
    cases s with
    | nil =>
      rw [List.cons_append, likeMatch_cons, if_neg (by simp [ha.1])]
      simp
    | cons c s =>
      rw [List.cons_append, likeMatch_cons, if_neg (by simp [ha.1])]
      simp [ha.2, ih hp' s, List.cons_prefix_cons]

/-- Core LIKE characterization: for a wildcard-free term, the pattern
`%term%` matches a string exactly when the term occurs inside it. -/
theorem likeMatch_wrap (p : List Char) (hp : noWild p) (s : List Char) :
    likeMatch ('%' :: p ++ ['%']) s = true ↔ p <:+: s := by
  rw [List.cons_append, likeMatch_star]
  constructor
  · rintro ⟨t, hts, hm⟩
    have hpt : p <+: t := (likeMatch_lit_star p hp t).mp hm
    obtain ⟨u, hu⟩ := hts
    obtain ⟨v, hv⟩ := hpt
    exact ⟨u, v, by rw [← hu, ← hv]; simp⟩
  · rintro ⟨u, v, rfl⟩
    exact ⟨p ++ v, ⟨u, by simp⟩, (likeMatch_lit_star p hp (p ++ v)).mpr ⟨v, rfl⟩⟩

/-- Case-insensitive substring containment, through the embedding's
lowercasing: the term (already lowercase, as every term produced by `termsOf`
is) occurs inside the lowercased field. -/
def substrCI (t field : String) : Prop := t.data <:+: (lowerStr field).data

instance (t field : String) : Decidable (substrCI t field) := by
  unfold substrCI
  infer_instance

/-- For wildcard-free terms, one `LOWER(field) LIKE '%term%'` test is exactly
case-insensitive substring containment. -/
theorem fieldLike_iff_substr (t : String) (ht : noWild t.data) (f : String) :
    fieldLike t f = true ↔ substrCI t f :=
  likeMatch_wrap t.data ht (lowerStr f).data

/-- For wildcard-free terms, the per-term WHERE conjunct holds exactly when
the term occurs in the title, the tags string, or the description. -/
theorem matchesTerm_iff_substr (t : String) (ht : noWild t.data) (s : Snippet) :
    matchesTerm t s = true
      ↔ substrCI t s.title ∨ substrCI t s.tags ∨ substrCI t s.description := by
  simp only [matchesTerm, Bool.or_eq_true, fieldLike_iff_substr t ht]
  exact or_assoc

/-- An empty query produces no terms. -/
theorem termsOf_empty_query {q : String} (hq : q.isEmpty = true) : termsOf q = [] := by
  have h : q = "" := (String.isEmpty_iff q).mp hq
  subst h
  rfl

/-- On a query with at least one term, search reduces to LIKE-filtering the
rows and sorting by modified descending. -/
theorem searchSnippets_eq_of_terms (db : DB) (q : String) (hq : termsOf q ≠ []) :
    searchSnippets db q = Except.ok (List.insertionSort modDesc
      (db.rows.filter (fun s => (termsOf q).all (fun t => matchesTerm t s)))) := by
  have hqe : q.isEmpty = false := by
    rcases h : q.isEmpty with _ | _
    · rfl
    · exact absurd (termsOf_empty_query h) hq
  unfold searchSnippets
  rw [hqe]
  simp [List.isEmpty_iff, hq]

/-- C1 counterexample: the query "a_c" has the single term "a_c", which is not
a case-insensitive substring of any field of `snipAbc` (title "abc", tags "t",
empty description), yet search returns the record — SQL LIKE treats the `_`
inside the term as a one-character wildcard, not as a literal. -/
theorem search_like_wildcard_cex :
    searchSnippets dbAbc "a_c" = Except.ok [snipAbc]
    ∧ termsOf "a_c" = ["a_c"]
    ∧ ¬ substrCI "a_c" snipAbc.title
    ∧ ¬ substrCI "a_c" snipAbc.tags
    ∧ ¬ substrCI "a_c" snipAbc.description := by
  refine ⟨rfl, rfl, ?_, ?_, ?_⟩ <;> decide

/-- C1 (amended): for every store and every query having at least one term,
all terms being free of the SQL LIKE wildcards `%` and `_`, search succeeds
and returns exactly the records in which EVERY term occurs case-insensitively
as a substring of at least one of title, tags-joined string, or description
(terms ANDed, fields ORed within a term); and a non-empty wildcard-free term
never matches through an empty description field.  For terms containing `%`
or `_`, LIKE wildcard semantics apply instead (see the counterexample). -/
theorem search_matches_substring_of_wildcard_free (db : DB) (q : String)
    (hq : termsOf q ≠ [])
    (hw : ∀ t ∈ termsOf q, noWild t.data) :
    (∃ l, searchSnippets db q = Except.ok l
      ∧ ∀ s, s ∈ l ↔ s ∈ db.rows ∧
          ∀ t ∈ termsOf q,
            substrCI t s.title ∨ substrCI t s.tags ∨ substrCI t s.description)
    ∧ (∀ t : String, noWild t.data → t ≠ "" → fieldLike t "" = false) := by
  constructor
  · refine ⟨_, searchSnippets_eq_of_terms db q hq, ?_⟩
    intro s
    simp only [List.mem_insertionSort, List.mem_filter, List.all_eq_true]
    constructor
    · rintro ⟨hmem, hall⟩
      exact ⟨hmem, fun t ht => (matchesTerm_iff_substr t (hw t ht) s).mp (hall t ht)⟩
    · rintro ⟨hmem, hall⟩
      exact ⟨hmem, fun t ht => (matchesTerm_iff_substr t (hw t ht) s).mpr (hall t ht)⟩
  · intro t hnw htne
    rcases h : fieldLike t "" with _ | _
    · rfl
    · exfalso
      have hsub : substrCI t "" := (fieldLike_iff_substr t hnw "").mp h
      have hdata : t.data = [] := by
        have h2 : t.data <:+: ([] : List Char) := hsub
        simpa using h2.sublist
      apply htne
      cases t with
      | mk d =>
        have hd : d = [] := hdata
        subst hd
        rfl

/-- Witness: on the singleton store, the wildcard-free one-term query "ab"
satisfies the amended search theorem's hypotheses. -/
theorem search_matches_substring_witness :
    (∃ l, searchSnippets dbAbc "ab" = Except.ok l
      ∧ ∀ s, s ∈ l ↔ s ∈ dbAbc.rows ∧
          ∀ t ∈ termsOf "ab",
            substrCI t s.title ∨ substrCI t s.tags ∨ substrCI t s.description)
    ∧ (∀ t : String, noWild t.data → t ≠ "" → fieldLike t "" = false) :=
  search_matches_substring_of_wildcard_free dbAbc "ab" (by decide) (by decide)

/-- C3: the empty query returns every stored record exactly once (a
permutation of the row set) ordered by modified descending, and for every
query with at least one term the result is, up to that same
modified-descending ordering, exactly the LIKE-filtered record set — no other
ranking or scoring is applied. -/
theorem search_ordered_modified_desc (db : DB) :
    (∃ l, searchSnippets db "" = Except.ok l ∧ l.Perm db.rows ∧ l.Sorted modDesc)
    ∧ (∀ q, termsOf q ≠ [] →
        ∃ l, searchSnippets db q = Except.ok l
          ∧ l.Perm (db.rows.filter
              (fun s => (termsOf q).all (fun t => matchesTerm t s)))
          ∧ l.Sorted modDesc) := by
  constructor
  · exact ⟨_, rfl, List.perm_insertionSort modDesc db.rows,
      List.sorted_insertionSort modDesc db.rows⟩
  · intro q hq
    exact ⟨_, searchSnippets_eq_of_terms db q hq,
      List.perm_insertionSort modDesc _, List.sorted_insertionSort modDesc _⟩

/-- Witness: the ordering theorem applied to the singleton store and the
one-term query "t" (which matches via the tags field). -/
theorem search_ordered_witness :
    ∃ l, searchSnippets dbAbc "t" = Except.ok l
      ∧ l.Perm (dbAbc.rows.filter
          (fun s => (termsOf "t").all (fun t => matchesTerm t s)))
      ∧ l.Sorted modDesc :=
  (search_ordered_modified_desc dbAbc).2 "t" (by decide)

/-- Helper for the collision loop: if some candidate within the fuel bound is
free, the loop stops at the first free candidate at or after the start
index. -/
theorem findFreePath_first_free (ex : String → Bool) (title : String) :
    ∀ (fuel k : Nat), (∃ j, j < fuel ∧ ex (candidateName title (k + j)) = false) →
      ∃ m, k ≤ m ∧ findFreePath ex title fuel k = some (candidateName title m)
        ∧ ex (candidateName title m) = false
        ∧ ∀ i, k ≤ i → i < m → ex (candidateName title i) = true := by
  intro fuel
  induction fuel with
  | zero =>
    rintro k ⟨j, hj, _⟩
    exact absurd hj (Nat.not_lt_zero j)
  | succ fuel ih =>
    rintro k ⟨j, hj, hfree⟩
    by_cases hk : ex (candidateName title k) = true
    · have hj0 : j ≠ 0 := by
        rintro rfl
        rw [Nat.add_zero, hk] at hfree
        simp at hfree
      obtain ⟨j', rfl⟩ := Nat.exists_eq_succ_of_ne_zero hj0
      obtain ⟨m, hkm, heq, hfree', hall⟩ := ih (k + 1)
        ⟨j', by omega, by rw [show k + 1 + j' = k + (j' + 1) by omega]; exact hfree⟩
      refine ⟨m, by omega, ?_, hfree', ?_⟩
      · simp only [findFreePath]
        rw [if_pos hk]
        exact heq
      · intro i hki him
        rcases Nat.eq_or_lt_of_le hki with rfl | hlt
        · exact hk
        · exact hall i (by omega) him
    · have hkf : ex (candidateName title k) = false := by
        rcases h : ex (candidateName title k) with _ | _
        · rfl
        · exact absurd h hk
      refine ⟨k, Nat.le_refl k, ?_, hkf, ?_⟩
      · simp only [findFreePath]
        rw [if_neg (by simp [hkf])]
      · intro i hki him
        omega

/-- C6: the derived base filename is the lowercased title with every character
that is not alphanumeric, '-' or '_' replaced by '_' (length-preserving and
producing only that alphabet; concretely "My API Call!" gives base file
"my_api_call_.md", and the next candidate carries suffix _1); when names
collide, the loop returns the first free candidate of
`base.md`, `base_1.md`, `base_2.md`, ... -/
theorem create_file_name_derivation (ex : String → Bool) (title : String)
    (fuel : Nat) (hfree : ∃ j, j < fuel ∧ ex (candidateName title j) = false) :
    safeFilename "My API Call!" = "my_api_call_"
    ∧ candidateName "My API Call!" 0 = "my_api_call_.md"
    ∧ candidateName "My API Call!" 1 = "my_api_call__1.md"
    ∧ (safeFilename title).data.length = title.data.length
    ∧ (∀ c ∈ (safeFilename title).data, c.isAlphanum ∨ c = '-' ∨ c = '_')
    ∧ ∃ m, findFreePath ex title fuel 0 = some (candidateName title m)
        ∧ ex (candidateName title m) = false
        ∧ ∀ i, i < m → ex (candidateName title i) = true := by
  refine ⟨rfl, rfl, rfl, by simp [safeFilename], ?_, ?_⟩
  · intro c hc
    simp only [safeFilename, List.mem_map] at hc
    obtain ⟨c0, _, rfl⟩ := hc
    split
    · rename_i h
      simp only [Bool.or_eq_true, beq_iff_eq] at h
      tauto
    · right; right; rfl
  · obtain ⟨m, _, heq, hfree', hall⟩ := findFreePath_first_free ex title fuel 0
      (by simpa using hfree)
    exact ⟨m, heq, hfree', fun i him => hall i (Nat.zero_le i) him⟩

/-- Filesystem containing exactly the base candidate for "My API Call!", for
the collision-loop witness. -/
def exFS : String → Bool := fun n => n == "my_api_call_.md"

/-- Witness: with the base name already taken, the loop lands on suffix _1. -/
theorem create_file_name_witness :
    safeFilename "My API Call!" = "my_api_call_"
    ∧ candidateName "My API Call!" 0 = "my_api_call_.md"
    ∧ candidateName "My API Call!" 1 = "my_api_call__1.md"
    ∧ (safeFilename "My API Call!").data.length = "My API Call!".data.length
    ∧ (∀ c ∈ (safeFilename "My API Call!").data, c.isAlphanum ∨ c = '-' ∨ c = '_')
    ∧ ∃ m, findFreePath exFS "My API Call!" 2 0
          = some (candidateName "My API Call!" m)
        ∧ exFS (candidateName "My API Call!" m) = false
        ∧ ∀ i, i < m → exFS (candidateName "My API Call!" i) = true :=
  create_file_name_derivation exFS "My API Call!" 2 ⟨1, by decide, by decide⟩
